import Mathlib

/-!
Shallow embedding of the llama-service process-orchestration core of an
Electron desktop application (`llama-service.ts`, the `llama:*` IPC handlers
in `main.ts`, and the benchmark drivers), together with proofs about the
claims of its specification.

Conventions of the embedding:
* JavaScript strings are Lean `String`s; `String.prototype.includes` is
  `strIncludes` (substring containment over the character list).
* A TypeScript optional field (which can be absent, explicitly `undefined`,
  or carry a value) is a `JsField`.  Object spread `{...a, ...b}` is
  `spreadField` per field: a property present in `b` (even with value
  `undefined`) overwrites the one of `a`.
* Child-process behaviour is modelled as a trace of low-level occurrences
  (`ProcEv`): stdout chunks, stderr chunks, a `close` with an exit code
  (`none` models a `null` code), or a process-level error.  The combined
  service + IPC-relay logic is a state machine folded over such a trace.
* Numeric rendering (`Number.prototype.toString`) is abstracted by Lean's
  `toString`; no claim depends on the decimal format of a rendered number.
* IEEE-754 division/subtraction special values (needed for the token-rate
  arithmetic) are modelled by `JsNum`, a rational extended with `nan`,
  `inf`, `ninf`; rounding of finite values is not modelled, which is
  irrelevant to zero-denominator behaviour.
-/

/-! ## JavaScript string containment (`String.prototype.includes`) -/

/-- Does the character list start with the given pattern? -/
def charListHasPre : List Char → List Char → Bool
  | _, [] => true
  | [], _ :: _ => false
  | a :: as, b :: bs => a == b && charListHasPre as bs

/-- Does the character list contain the pattern as a contiguous run? -/
def charListHasSub (sub : List Char) : List Char → Bool
  | [] => charListHasPre [] sub
  | h :: t => charListHasPre (h :: t) sub || charListHasSub sub t

/-- JavaScript `hay.includes(sub)`. -/
def strIncludes (hay sub : String) : Bool :=
  charListHasSub sub.data hay.data

/-- `streamingQuery`'s stderr heuristic: case-insensitive containment of
"error", "exception" or "fatal" escalates a stderr chunk to an error event. -/
def stderrIsError (s : String) : Bool :=
  strIncludes s.toLower "error" || strIncludes s.toLower "exception" ||
    strIncludes s.toLower "fatal"

/-- Concatenation of accumulated output chunks (`modelOutput += text`). -/
def concatAll : List String → String
  | [] => ""
  | s :: rest => s ++ concatAll rest

/-! ## ModelOptions and the default-merge (`{...DEFAULT_OPTIONS, ...options}`) -/

/-- One TypeScript optional property: absent from the object, present with
value `undefined`, or present with a defined value. -/
inductive JsField (α : Type) where
  | absent : JsField α
  | undefinedVal : JsField α
  | val : α → JsField α
deriving DecidableEq, Repr

/-- Is the property present with a defined value? -/
def JsField.isVal {α : Type} : JsField α → Bool
  | .val _ => true
  | _ => false

/-- Is the property present but explicitly `undefined`? -/
def JsField.isUndefinedVal {α : Type} : JsField α → Bool
  | .undefinedVal => true
  | _ => false

/-- Property access followed by a truthiness test (`if (o.streaming)`):
absent and `undefined` are falsy. -/
def jsTruthy : JsField Bool → Bool
  | .val b => b
  | _ => false

/-- `o.f || d` for an integer-valued property: absent, `undefined` and `0`
are falsy and fall back to the default. -/
def jsOrInt (f : JsField ℤ) (d : ℤ) : ℤ :=
  match f with
  | .val v => if v = 0 then d else v
  | _ => d

/-- The `ModelOptions` record of `llama-service.ts`: all six recognized
options, each optional. -/
structure ModelOptionsRec where
  temperature : JsField ℚ
  topP : JsField ℚ
  maxTokens : JsField ℤ
  seed : JsField ℤ
  contextSize : JsField ℤ
  streaming : JsField Bool
deriving DecidableEq, Repr

/-- `DEFAULT_OPTIONS` of `llama-service.ts`. -/
def DEFAULT_OPTIONS : ModelOptionsRec :=
  { temperature := .val (7/10)
    topP := .val (9/10)
    maxTokens := .val 500
    seed := .val 42
    contextSize := .val 2048
    streaming := .val false }

/-- One field of an object spread `{...d, ...o}`: a property present in `o`
(also when its value is `undefined`) overwrites the one of `d`. -/
def spreadField {α : Type} : JsField α → JsField α → JsField α
  | d, .absent => d
  | _, .undefinedVal => .undefinedVal
  | _, .val v => .val v

/-- `{...DEFAULT_OPTIONS, ...options}` (the merge in `queryModel`). -/
def mergeOptions (d o : ModelOptionsRec) : ModelOptionsRec :=
  { temperature := spreadField d.temperature o.temperature
    topP := spreadField d.topP o.topP
    maxTokens := spreadField d.maxTokens o.maxTokens
    seed := spreadField d.seed o.seed
    contextSize := spreadField d.contextSize o.contextSize
    streaming := spreadField d.streaming o.streaming }

/-- All six option fields carry a defined value. -/
def fullyPopulated (m : ModelOptionsRec) : Bool :=
  m.temperature.isVal && m.topP.isVal && m.maxTokens.isVal &&
    m.seed.isVal && m.contextSize.isVal && m.streaming.isVal

/-- No field of the record is explicitly `undefined` (each is either
omitted or carries a value). -/
def noUndefinedVal (o : ModelOptionsRec) : Bool :=
  !o.temperature.isUndefinedVal && !o.topP.isUndefinedVal && !o.maxTokens.isUndefinedVal &&
    !o.seed.isUndefinedVal && !o.contextSize.isUndefinedVal && !o.streaming.isUndefinedVal

/-- An options record with every property omitted (`{}`). -/
def emptyOptions : ModelOptionsRec :=
  { temperature := .absent, topP := .absent, maxTokens := .absent
    seed := .absent, contextSize := .absent, streaming := .absent }

/-! ## Command Builder (`queryModel`, lines 878-907 of `llama-service.ts`) -/

/-- The capability-gated flag tokens the Command Builder may append. -/
def gatedTokens : List String :=
  ["--top-p", "--no-display-prompt", "--no-interactive", "--no-cnv", "-no-cnv"]

/-- The argument vector built by `queryModel`: the fixed base (model path,
prompt, temperature, seed, context size, max tokens, thread count) followed
by the capability-gated flags, each appended only when the probe's help
output contains its token.  `cpus` is `os.cpus().length`; the rendered
numeric values arrive as strings. -/
def buildArgs (modelPath prompt t sd cs mt tp : String) (cpus : Nat)
    (caps : String) : List String :=
  (["-m", modelPath, "-p", prompt,
    "--temp", t, "--seed", sd, "--ctx-size", cs, "--n-predict", mt,
    "--threads", toString (max 1 (cpus - 1))]
    ++ (if strIncludes caps "--top-p" then ["--top-p", tp] else [])
    ++ (if strIncludes caps "--no-display-prompt" then ["--no-display-prompt"] else [])
    ++ (if strIncludes caps "--no-interactive" then ["--no-interactive"] else [])
    ++ (if strIncludes caps "--no-cnv" then ["--no-cnv"]
        else if strIncludes caps "-no-cnv" then ["-no-cnv"] else []))

/-! ## Session Facade (`queryModel` control flow) -/

/-- The plan `queryModel` commits to after building the argument vector:
delegate to `streamingQuery` or `standardQuery`. -/
inductive QueryPlan where
  | standardRun (args : List String) : QueryPlan
  | streamingRun (args : List String) : QueryPlan
deriving DecidableEq, Repr

def noModelMsg : String := "No model loaded. Please call loadModel() first."

def libMsg : String := "Required library not found. Run npm run build-llama to create it."

/-- The runtime failure of dereferencing an `undefined` merged field
(`mergedOptions.temperature!.toString()` when the field is `undefined`). -/
def typeErrorMsg : String := "TypeError: Cannot read properties of undefined"

/-- `field!.toString()`: renders a defined value, throws on `undefined`
(or an absent property, whose access also yields `undefined`). -/
def JsField.render {α : Type} [ToString α] : JsField α → Except String String
  | .val v => .ok (toString v)
  | _ => .error typeErrorMsg

/-- `queryModel(prompt, options)` up to the delegation point: the
no-model check, the option merge, the library check, the capability probe
(`execSync(llamaBinaryPath + " -h")`, whose outcome is the `probe`
argument: help text or a thrown error), the argument build, and the
streaming/standard dispatch.  A probe failure propagates out of the
enclosing `try` (the `catch` logs and rethrows). -/
def queryModel (activeModel : Option String) (libraryReady : Bool)
    (probe : Except String String) (cpus : Nat)
    (prompt : String) (options : ModelOptionsRec) : Except String QueryPlan :=
  match activeModel with
  | none => .error noModelMsg
  | some modelPath => do
    let m := mergeOptions DEFAULT_OPTIONS options
    if libraryReady = false then
      throw libMsg
    let caps ← probe
    let t ← m.temperature.render
    let sd ← m.seed.render
    let cs ← m.contextSize.render
    let mt ← m.maxTokens.render
    let tp ← if strIncludes caps "--top-p" then m.topP.render else pure ""
    let args := buildArgs modelPath prompt t sd cs mt tp cpus caps
    if jsTruthy m.streaming then
      pure (.streamingRun args)
    else
      pure (.standardRun args)

/-! ## Benchmark drivers (`benchmarkAllModels` of `llama-service.ts` /
`scripts/benchmark.ts` variant of part_000) -/

/-- The argument vector the benchmark driver builds when the capability
probe succeeds, gated flags appended from the help text. -/
def benchArgs (modelPath prompt : String) (cpus : Nat) (caps : String) :
    List String :=
  (["-m", modelPath, "-p", prompt,
    "--temp", "0.7", "--seed", "42", "--ctx-size", "2048",
    "--batch-size", "512",
    "--threads", toString (max 1 (cpus - 1)), "--n-predict", "500"]
    ++ (if strIncludes caps "--no-display-prompt" then ["--no-display-prompt"] else [])
    ++ (if strIncludes caps "--no-mmap" then ["--no-mmap"] else [])
    ++ (if strIncludes caps "--no-interactive" then ["--no-interactive"] else [])
    ++ (if strIncludes caps "--no-cnv" then ["--no-cnv"]
        else if strIncludes caps "-no-cnv" then ["-no-cnv"] else []))

/-- The "fallback to basic parameters" argument vector of the benchmark
driver's `catch (versionError)` branch. -/
def benchFallbackArgs (modelPath prompt : String) : List String :=
  ["-m", modelPath, "-p", prompt, "--temp", "0.7", "--seed", "42",
   "--n-predict", "100"]

/-- The argument vector the benchmark driver actually spawns with: the full
set when the probe succeeded, the minimal fallback when it threw.  Unlike
`queryModel`, a probe failure here does not abort the run. -/
def benchPlanArgs (modelPath prompt : String) (cpus : Nat)
    (probe : Except String String) : List String :=
  match probe with
  | .ok caps => benchArgs modelPath prompt cpus caps
  | .error _ => benchFallbackArgs modelPath prompt

/-! ## IPC bridge: the `llama:stream-query` option override -/

/-- The `streamingOptions` record the `llama:stream-query` handler builds
from the caller's options: streaming forced on, context size clamped by
`Math.min(options.contextSize || 2048, 512)`, max tokens clamped by
`Math.min(options.maxTokens || 500, 100)`.  (The handler also adds a
`batchSize: 64` property, which `ModelOptions` does not declare and
`queryModel` never reads; it is not modelled.) -/
def streamQueryOptions (o : ModelOptionsRec) : ModelOptionsRec :=
  { o with
    streaming := .val true
    contextSize := .val (min (jsOrInt o.contextSize 2048) 512)
    maxTokens := .val (min (jsOrInt o.maxTokens 500) 100) }

/-! ## Process Supervisor: registry and process traces -/

/-- A registry entry: `standardQuery` stores the raw child handle,
`streamingQuery` stores a `{ process: child }` wrapper (the two shapes
`stopAllProcesses` distinguishes with its `'process' in processData` test). -/
inductive Handle where
  | plain : Handle
  | wrapped : Handle
deriving DecidableEq, Repr

/-- `Map.delete(key)` on the active-process registry (keys unique). -/
def delKey : List (String × Handle) → String → List (String × Handle)
  | [], _ => []
  | (k, h) :: rest, key => if k == key then rest else (k, h) :: delKey rest key

/-- Keys of the registry. -/
def regKeys (r : List (String × Handle)) : List String := r.map Prod.fst

/-- One low-level occurrence in the lifetime of a spawned child process:
a stdout chunk, a stderr chunk, the `close` event with its exit code
(`none` models a `null` code), or a process-level `error` event. -/
inductive ProcEv where
  | out (s : String) : ProcEv
  | errOut (s : String) : ProcEv
  | close (code : Option ℤ) : ProcEv
  | fail (msg : String) : ProcEv
deriving DecidableEq, Repr

/-- Output events; `close` and `fail` are the terminal occurrences. -/
def nonTerminal : ProcEv → Bool
  | .out _ => true
  | .errOut _ => true
  | _ => false

/-- A well-formed process trace: non-empty, terminal occurrence exactly at
the end. -/
def wfTrace : List ProcEv → Bool
  | [] => false
  | [e] => !nonTerminal e
  | e :: rest => nonTerminal e && wfTrace rest

/-- `new Error("Model process exited with code " + code)`; a `null` code
interpolates as "null". -/
def exitMsg (code : Option ℤ) : String :=
  "Model process exited with code " ++
    (match code with
     | some c => toString c
     | none => "null")

/-! ## Streaming pipeline (`streamingQuery` + the `llama:stream-query`
IPC relay) -/

/-- The events the renderer receives for one streaming query:
`llama:stream-start`, `llama:stream-data`, `llama:stream-end`,
`llama:stream-error`. -/
inductive IpcEv where
  | start : IpcEv
  | data (chunk : String) : IpcEv
  | endEv (fullResponse : String) : IpcEv
  | errEv (msg : String) : IpcEv
deriving DecidableEq, Repr

def isData : IpcEv → Bool
  | .data _ => true
  | _ => false

def isErr : IpcEv → Bool
  | .errEv _ => true
  | _ => false

/-- A stderr chunk the heuristic escalates to an error event. -/
def isBadEv : ProcEv → Bool
  | .errOut s => stderrIsError s
  | _ => false

/-- The stdout chunks of a trace, in arrival order. -/
def outsOf : List ProcEv → List String :=
  List.filterMap (fun e => match e with | .out s => some s | _ => none)

/-- Joint state of `streamingQuery` and the `llama:stream-query` handler for
a single query: the events relayed so far, whether the handler's
`data`/`error`/`end` listeners are still attached (`cleanup()` removes all
three after the first relayed terminal event), the accumulated `fullOutput`,
the pending rejection of the `queryModel` promise (whose `.catch` invokes
`errorHandler` directly, bypassing the listener check), and the
active-process registry. -/
structure StreamState where
  emitted : List IpcEv
  listeners : Bool
  fullOutput : String
  rejected : Option String
  registry : List (String × Handle)
deriving Repr

/-- One low-level occurrence processed by `streamingQuery`'s handlers and
relayed through the IPC handler's listeners:
* stdout: accumulate, `emit('data')` — relayed only while the listeners
  are attached;
* stderr: escalated to `emit('error')` only when it lexically looks like an
  error; the relay replies `stream-error` and detaches the listeners;
* `close`: registry removal; code `0`/`null` emits `end(fullOutput)` and
  resolves, otherwise emits `error` and rejects the promise;
* process `error`: registry removal, `emit('error')`, reject. -/
def streamStep (pid : String) (st : StreamState) : ProcEv → StreamState
  | .out s =>
      { st with
        fullOutput := st.fullOutput ++ s
        emitted := st.emitted ++ (if st.listeners then [IpcEv.data s] else []) }
  | .errOut s =>
      if stderrIsError s then
        if st.listeners then
          { st with emitted := st.emitted ++ [IpcEv.errEv s], listeners := false }
        else st
      else st
  | .close code =>
      let st1 := { st with registry := delKey st.registry pid }
      if code = some 0 ∨ code = none then
        if st1.listeners then
          { st1 with
            emitted := st1.emitted ++ [IpcEv.endEv st1.fullOutput]
            listeners := false }
        else st1
      else
        let st2 :=
          if st1.listeners then
            { st1 with
              emitted := st1.emitted ++ [IpcEv.errEv (exitMsg code)]
              listeners := false }
          else st1
        { st2 with rejected := st2.rejected <|> some (exitMsg code) }
  | .fail msg =>
      let st1 := { st with registry := delKey st.registry pid }
      let st2 :=
        if st1.listeners then
          { st1 with emitted := st1.emitted ++ [IpcEv.errEv msg], listeners := false }
        else st1
      { st2 with rejected := st2.rejected <|> some msg }

/-- A full streaming query over one process trace: `stream-start` is
replied before the query runs, the handle is registered at spawn, the trace
is processed, and finally — if the `queryModel` promise was rejected — its
`.catch` invokes `errorHandler`, which replies one more `stream-error`
regardless of the (already removed) listeners. -/
def runStream (pid : String) (r : List (String × Handle)) (t : List ProcEv) :
    StreamState :=
  let st := t.foldl (streamStep pid)
    { emitted := [IpcEv.start], listeners := true, fullOutput := ""
      rejected := none, registry := (pid, Handle.wrapped) :: r }
  match st.rejected with
  | some msg => { st with emitted := st.emitted ++ [IpcEv.errEv msg] }
  | none => st

/-! ## Aggregate pipeline (`standardQuery`) -/

/-- State of one `standardQuery` promise: accumulated stdout, the registry,
and the settled result (`none` while pending). -/
structure StdState where
  modelOutput : String
  registry : List (String × Handle)
  result : Option (Except String String)
deriving Repr

/-- `standardQuery`'s handlers: stdout accumulates, stderr is only logged,
`close` removes the handle and resolves the output exactly when the code is
`0` (a `null` code rejects), a process `error` removes the handle and
rejects.  A promise settles only once. -/
def stdStep (pid : String) (st : StdState) : ProcEv → StdState
  | .out s => { st with modelOutput := st.modelOutput ++ s }
  | .errOut _ => st
  | .close code =>
      { st with
        registry := delKey st.registry pid
        result := st.result <|>
          some (if code = some 0 then Except.ok st.modelOutput
                else Except.error (exitMsg code)) }
  | .fail msg =>
      { st with
        registry := delKey st.registry pid
        result := st.result <|> some (Except.error msg) }

/-- A full `standardQuery` run over one process trace, starting from
registry `r` with fresh process id `pid`. -/
def runStandard (pid : String) (r : List (String × Handle))
    (t : List ProcEv) : StdState :=
  t.foldl (stdStep pid)
    { modelOutput := "", registry := (pid, Handle.plain) :: r, result := none }

/-! ## Benchmark promise (part_000 `benchmarkAllModels`, close handler) -/

/-- State of the benchmark driver's per-model output promise. -/
structure BenchState where
  modelOutput : String
  result : Option (Except String String)
deriving Repr

/-- The benchmark driver's handlers: on `close` it resolves only when some
output was captured (`modelOutput.length > 0`), rejecting otherwise even on
exit code `0`. -/
def benchStep (st : BenchState) : ProcEv → BenchState
  | .out s => { st with modelOutput := st.modelOutput ++ s }
  | .errOut _ => st
  | .close code =>
      { st with
        result := st.result <|>
          some (if st.modelOutput.length > 0 then Except.ok st.modelOutput
                else Except.error (exitMsg code)) }
  | .fail msg => { st with result := st.result <|> some (Except.error msg) }

/-- A full benchmark output promise over one process trace. -/
def runBench (t : List ProcEv) : BenchState :=
  t.foldl benchStep { modelOutput := "", result := none }

/-! ## `stopAllProcesses` -/

/-- The loop body of `stopAllProcesses`: every entry is signalled
(`processData.process.kill('SIGINT')` for the streaming shape,
`processData.kill('SIGINT')` for the standard shape; a throwing `kill` is
caught and the loop continues). -/
def stopLoop : List (String × Handle) → List String
  | [] => []
  | (id, Handle.wrapped) :: rest => id :: stopLoop rest
  | (id, Handle.plain) :: rest => id :: stopLoop rest

/-- `stopAllProcesses()`: signal every registered process, then
`activeProcesses.clear()`.  Returns the ids signalled and the new registry. -/
def stopAllProcesses (procs : List (String × Handle)) :
    List String × List (String × Handle) :=
  (stopLoop procs, [])

/-! ## Repeated spawn/terminate cycles -/

/-- One spawn/terminate cycle: a fresh process id, the process trace, and
whether the streaming or the standard path ran. -/
structure SpawnCycle where
  pid : String
  trace : List ProcEv
  streaming : Bool
deriving DecidableEq, Repr

/-- The registry after running one cycle. -/
def afterCycle (r : List (String × Handle)) (c : SpawnCycle) :
    List (String × Handle) :=
  if c.streaming then (runStream c.pid r c.trace).registry
  else (runStandard c.pid r c.trace).registry

/-! ## `loadModel` -/

/-- `loadModel(modelPath)`.  `isAbs` and `basename` stand for
`path.isAbsolute` and `path.basename` (platform functions passed in),
`fileExists` for `fs.existsSync`, `availableModels` for the listing
`getAvailableModels()` returns, `activeModel` for the current slot.
Returns the boolean result and the slot afterwards. -/
def loadModel (isAbs : String → Bool) (basename : String → String)
    (fileExists : String → Bool) (libraryReady : Bool)
    (availableModels : List String) (activeModel : Option String)
    (modelPath : String) : Bool × Option String :=
  if libraryReady = false then (false, activeModel)
  else
    let resolved : Option String :=
      if !isAbs modelPath && !strIncludes modelPath "/" &&
          !strIncludes modelPath "\\" then
        match availableModels.filter
            (fun m => strIncludes (basename m) modelPath) with
        | [] => none
        | m :: _ => some m
      else some modelPath
    match resolved with
    | none => (false, activeModel)
    | some full =>
        if fileExists full then (true, some full) else (false, activeModel)

/-! ## JavaScript number arithmetic for the token-rate metrics -/

/-- A JavaScript number as far as the token-rate arithmetic needs it: a
finite rational or one of the IEEE-754 special values. -/
inductive JsNum where
  | nan : JsNum
  | inf : JsNum
  | ninf : JsNum
  | fin (q : ℚ) : JsNum
deriving DecidableEq, Repr

/-- JavaScript `/`: a zero divisor yields `±Infinity` (or `NaN` for `0/0`),
never an exception. -/
def jsDiv : JsNum → JsNum → JsNum
  | .nan, _ => .nan
  | _, .nan => .nan
  | .fin a, .fin b =>
      if b = 0 then (if a = 0 then .nan else if 0 < a then .inf else .ninf)
      else .fin (a / b)
  | .fin _, .inf => .fin 0
  | .fin _, .ninf => .fin 0
  | .inf, .fin b => if 0 ≤ b then .inf else .ninf
  | .ninf, .fin b => if 0 ≤ b then .ninf else .inf
  | .inf, .inf => .nan
  | .inf, .ninf => .nan
  | .ninf, .inf => .nan
  | .ninf, .ninf => .nan

/-- JavaScript `-` on numbers. -/
def jsSub : JsNum → JsNum → JsNum
  | .nan, _ => .nan
  | _, .nan => .nan
  | .fin a, .fin b => .fin (a - b)
  | .fin _, .inf => .ninf
  | .fin _, .ninf => .inf
  | .inf, .ninf => .inf
  | .inf, _ => .inf
  | .ninf, .inf => .ninf
  | .ninf, _ => .ninf

/-- JavaScript `<` on numbers (`NaN` compares false). -/
def jsLt : JsNum → JsNum → Bool
  | .nan, _ => false
  | _, .nan => false
  | .fin a, .fin b => decide (a < b)
  | .fin _, .inf => true
  | .fin _, .ninf => false
  | .inf, _ => false
  | .ninf, .ninf => false
  | .ninf, _ => true

/-- part_000 `benchmarkAllModels`, close path:
`tokensPerSec = tokenCount / elapsedSecs` — an unguarded division. -/
def benchmarkTokensPerSec (tokenCount elapsedSecs : JsNum) : JsNum :=
  jsDiv tokenCount elapsedSecs

/-- The `metrics` object part_000 `formatResults` builds for a successful
run. -/
structure FormattedMetrics where
  tokensPerSec : JsNum
  setupTime : JsNum
  generationTime : JsNum
  totalTime : JsNum
deriving DecidableEq, Repr

/-- part_000 `formatResults`: the estimated metrics block
(`setupTime = timeSeconds - tokenCount/tokensPerSecond`,
`generationTime = tokenCount/tokensPerSecond`) — unguarded divisions. -/
def formatMetrics (timeSeconds tokenCount tokensPerSecond : JsNum) :
    FormattedMetrics :=
  { tokensPerSec := tokensPerSecond
    setupTime := jsSub timeSeconds (jsDiv tokenCount tokensPerSecond)
    generationTime := jsDiv tokenCount tokensPerSecond
    totalTime := timeSeconds }

/-- `scripts/benchmark.ts` `benchmarkModel`: the generation-only rate,
guarded — `generationTimeSeconds > 0 ? tokenCount / generationTimeSeconds : 0`. -/
def generationTPS (tokenCount generationTimeSeconds : JsNum) : JsNum :=
  if jsLt (.fin 0) generationTimeSeconds then jsDiv tokenCount generationTimeSeconds
  else .fin 0

/-- `scripts/benchmark.ts` `benchmarkModel`: the aggregate average rate,
guarded — `totalTokens > 0 && totalTime > 0 ? totalTokens / totalTime : 0`
(same shape for the generation-time denominator). -/
def averageTPS (totalTokens totalTime : JsNum) : JsNum :=
  if jsLt (.fin 0) totalTokens && jsLt (.fin 0) totalTime then
    jsDiv totalTokens totalTime
  else .fin 0

/-- `scripts/benchmark.ts` `benchmarkModel`, per-prompt record:
`tokensPerSecond: result.tokenCount / result.timeSeconds` — unguarded. -/
def promptTotalTPS (tokenCount timeSeconds : JsNum) : JsNum :=
  jsDiv tokenCount timeSeconds

/-! ## Derived definitions used by the theorems -/

/-- An options record whose `temperature` property is present but
explicitly `undefined` (legal for the optional field `temperature?: number`). -/
def undefTempOptions : ModelOptionsRec :=
  { emptyOptions with temperature := JsField.undefinedVal }

/-- Number of `start` events. -/
def countStart (l : List IpcEv) : Nat :=
  l.countP (fun x => decide (x = IpcEv.start))

/-- Shape of the relayed event list while the process is still running:
nothing was rejected yet, and the events are `start`, data chunks, and —
exactly when the listeners were already detached — one trailing
`stream-error` from an error-looking stderr chunk. -/
def MidShape (st : StreamState) : Prop :=
  st.rejected = none ∧
  ∃ ds, (∀ x ∈ ds, isData x = true) ∧
    ((st.listeners = true ∧ st.emitted = IpcEv.start :: ds) ∨
     (st.listeners = false ∧
       ∃ a, st.emitted = IpcEv.start :: ds ++ [IpcEv.errEv a]))

/-! ## Helper lemmas -/

/-- `stopLoop` signals exactly the registered keys, in order. -/
lemma stopLoop_eq_keys (procs : List (String × Handle)) :
    stopLoop procs = regKeys procs := by
  induction procs with
  | nil => rfl
  | cons p rest ih =>
      obtain ⟨id, h⟩ := p
      cases h <;> simp [stopLoop, regKeys] at * <;> simpa [regKeys] using ih

/-- A field spread over a defined default stays defined unless the override
is explicitly `undefined`. -/
lemma spreadField_isVal {α : Type} (d : α) (f : JsField α)
    (h : f.isUndefinedVal = false) : (spreadField (JsField.val d) f).isVal = true := by
  cases f <;> simp_all [spreadField, JsField.isVal, JsField.isUndefinedVal]

/-! ## C5 -/

/-- Claim C5: `stopAllProcesses` signals every registered process (both handle
shapes) and leaves the registry empty when it returns, for every registry
state. -/
theorem stopAll_signals_all_and_empties (procs : List (String × Handle)) :
    (stopAllProcesses procs).2 = [] ∧
    (stopAllProcesses procs).1 = regKeys procs ∧
    ∀ p ∈ procs, p.1 ∈ (stopAllProcesses procs).1 := by
  refine ⟨rfl, stopLoop_eq_keys procs, ?_⟩
  intro p hp
  rw [show (stopAllProcesses procs).1 = regKeys procs from stopLoop_eq_keys procs]
  exact List.mem_map_of_mem Prod.fst hp

/-- Claim C5 witness: two active streaming processes are both signalled and the
registry is empty afterwards. -/
theorem stopAll_signals_all_and_empties_witness :
    (("stream_1", Handle.wrapped) ∈
        [("stream_1", Handle.wrapped), ("stream_2", Handle.wrapped)]) ∧
    (stopAllProcesses
        [("stream_1", Handle.wrapped), ("stream_2", Handle.wrapped)]).2 = [] ∧
    "stream_1" ∈ (stopAllProcesses
        [("stream_1", Handle.wrapped), ("stream_2", Handle.wrapped)]).1 ∧
    "stream_2" ∈ (stopAllProcesses
        [("stream_1", Handle.wrapped), ("stream_2", Handle.wrapped)]).1 := by
  refine ⟨by decide, (stopAll_signals_all_and_empties _).1, ?_, ?_⟩
  · exact (stopAll_signals_all_and_empties _).2.2
      ("stream_1", Handle.wrapped) (by decide)
  · exact (stopAll_signals_all_and_empties _).2.2
      ("stream_2", Handle.wrapped) (by decide)

/-! ## C10 -/

/-- Claim C10: whenever `loadModel` returns `false` (library missing, no name
match, or resolved path missing on disk), the active-model slot is left
unchanged; on `true` the slot holds a path that exists on disk. -/
theorem loadModel_frame (isAbs : String → Bool) (basename : String → String)
    (fileExists : String → Bool) (libraryReady : Bool)
    (models : List String) (active : Option String) (modelPath : String) :
    ((loadModel isAbs basename fileExists libraryReady models active
        modelPath).1 = false →
      (loadModel isAbs basename fileExists libraryReady models active
        modelPath).2 = active) ∧
    ((loadModel isAbs basename fileExists libraryReady models active
        modelPath).1 = true →
      ∃ full, (loadModel isAbs basename fileExists libraryReady models active
        modelPath).2 = some full ∧ fileExists full = true) := by
  unfold loadModel
  split
  · exact ⟨fun _ => rfl, fun h => by simp at h⟩
  · dsimp only
    split
    · exact ⟨fun _ => rfl, fun h => by simp at h⟩
    · split
      · rename_i hex
        exact ⟨fun h => by simp at h, fun _ => ⟨_, rfl, hex⟩⟩
      · exact ⟨fun _ => rfl, fun h => by simp at h⟩

/-- Claim C10 witness: with the library missing, a previously loaded model stays
active. -/
theorem loadModel_frame_witness :
    (loadModel (fun _ => false) (fun s => s) (fun _ => false) false []
        (some "old-model.gguf") "other").1 = false ∧
    (loadModel (fun _ => false) (fun s => s) (fun _ => false) false []
        (some "old-model.gguf") "other").2 = some "old-model.gguf" := by
  refine ⟨by decide, ?_⟩
  exact (loadModel_frame (fun _ => false) (fun s => s) (fun _ => false) false []
    (some "old-model.gguf") "other").1 (by decide)

/-! ## C9 -/

/-- Claim C9: the `llama:stream-query` handler overrides the caller's options:
after the default-merge the options `queryModel` uses have streaming forced
on, context size `min(requested-or-2048, 512)` and max tokens
`min(requested-or-500, 100)`; both caps are never exceeded. -/
theorem streamQueryOptions_override (o : ModelOptionsRec) :
    jsTruthy (mergeOptions DEFAULT_OPTIONS (streamQueryOptions o)).streaming
      = true ∧
    (mergeOptions DEFAULT_OPTIONS (streamQueryOptions o)).contextSize
      = JsField.val (min (jsOrInt o.contextSize 2048) 512) ∧
    (mergeOptions DEFAULT_OPTIONS (streamQueryOptions o)).maxTokens
      = JsField.val (min (jsOrInt o.maxTokens 500) 100) ∧
    min (jsOrInt o.contextSize 2048) 512 ≤ 512 ∧
    min (jsOrInt o.maxTokens 500) 100 ≤ 100 :=
  ⟨rfl, rfl, rfl, min_le_right _ _, min_le_right _ _⟩

/-! ## C7 -/

/-- Claim C7 counterexample: spreading an explicitly-`undefined` field over
`DEFAULT_OPTIONS` leaves the merged `temperature` undefined, so the merged
options are not fully populated, and `queryModel` fails with a `TypeError`
when it dereferences the field. -/
theorem mergeOptions_not_populated_counterexample :
    fullyPopulated (mergeOptions DEFAULT_OPTIONS undefTempOptions) = false ∧
    (mergeOptions DEFAULT_OPTIONS undefTempOptions).temperature
      = JsField.undefinedVal ∧
    queryModel (some "model.gguf") true (Except.ok "") 4 "hi"
      undefTempOptions = Except.error typeErrorMsg :=
  ⟨rfl, rfl, rfl⟩

/-- Claim C7 amended: for every options record none of whose properties is
explicitly `undefined` (each is omitted or carries a value), the merge over
`DEFAULT_OPTIONS` is fully populated. -/
theorem mergeOptions_populated (o : ModelOptionsRec)
    (h : noUndefinedVal o = true) :
    fullyPopulated (mergeOptions DEFAULT_OPTIONS o) = true := by
  unfold noUndefinedVal at h
  simp only [Bool.and_eq_true, Bool.not_eq_true'] at h
  obtain ⟨⟨⟨⟨⟨h1, h2⟩, h3⟩, h4⟩, h5⟩, h6⟩ := h
  unfold fullyPopulated mergeOptions DEFAULT_OPTIONS
  simp only [Bool.and_eq_true]
  exact ⟨⟨⟨⟨⟨spreadField_isVal _ _ h1, spreadField_isVal _ _ h2⟩,
    spreadField_isVal _ _ h3⟩, spreadField_isVal _ _ h4⟩,
    spreadField_isVal _ _ h5⟩, spreadField_isVal _ _ h6⟩

/-- Claim C7 witness: the empty options record has no `undefined` property and
merges to fully populated options. -/
theorem mergeOptions_populated_witness :
    noUndefinedVal emptyOptions = true ∧
    fullyPopulated (mergeOptions DEFAULT_OPTIONS emptyOptions) = true :=
  ⟨rfl, mergeOptions_populated emptyOptions rfl⟩

/-! ## C3 -/

/-- Claim C3 counterexample: in `queryModel` a capability-probe failure (the
`execSync` help invocation throwing) is rethrown by the surrounding
`catch`, aborting the query — no argument vector is built and no process is
spawned. -/
theorem queryModel_probe_failure_aborts_counterexample :
    queryModel (some "model.gguf") true (Except.error "spawn llama-cli ENOENT")
      4 "hi" emptyOptions = Except.error "spawn llama-cli ENOENT" :=
  rfl

/-- Claim C3 amended: probe failure aborts `queryModel` (the error propagates and
no plan is produced), while the benchmark driver falls back to the minimal
argument vector — containing the required generation parameters — and still
attempts the query. -/
theorem probe_failure_paths (m p : String) (opts : ModelOptionsRec)
    (cpus : Nat) (e : String) :
    queryModel (some m) true (Except.error e) cpus p opts = Except.error e ∧
    benchPlanArgs m p cpus (Except.error e) = benchFallbackArgs m p ∧
    "-m" ∈ benchFallbackArgs m p ∧ m ∈ benchFallbackArgs m p ∧
    "-p" ∈ benchFallbackArgs m p ∧ p ∈ benchFallbackArgs m p ∧
    "--temp" ∈ benchFallbackArgs m p ∧ "--seed" ∈ benchFallbackArgs m p ∧
    "--n-predict" ∈ benchFallbackArgs m p := by
  refine ⟨rfl, rfl, ?_, ?_, ?_, ?_, ?_, ?_, ?_⟩ <;> simp [benchFallbackArgs]

/-! ## Body-run lemmas for the process machines -/

/-- Output events only accumulate stdout in `standardQuery`'s promise
state. -/
lemma stdStep_body (pid : String) (body : List ProcEv) :
    ∀ st : StdState, (∀ e ∈ body, nonTerminal e = true) →
      body.foldl (stdStep pid) st
        = { st with modelOutput := st.modelOutput ++ concatAll (outsOf body) } := by
  induction body with
  | nil => intro st _; simp [concatAll, outsOf]
  | cons e rest ih =>
      intro st hb
      have he : nonTerminal e = true := hb e (List.mem_cons_self e rest)
      have hrest : ∀ x ∈ rest, nonTerminal x = true :=
        fun x hx => hb x (List.mem_cons_of_mem e hx)
      cases e with
      | out s =>
          rw [List.foldl_cons, ih _ hrest]
          simp [stdStep, outsOf, concatAll, String.append_assoc]
      | errOut s =>
          rw [List.foldl_cons, ih _ hrest]
          simp [stdStep, outsOf, concatAll]
      | close code => simp [nonTerminal] at he
      | fail msg => simp [nonTerminal] at he

/-- Output events only accumulate stdout in the benchmark promise state. -/
lemma benchStep_body (body : List ProcEv) :
    ∀ st : BenchState, (∀ e ∈ body, nonTerminal e = true) →
      body.foldl benchStep st
        = { st with modelOutput := st.modelOutput ++ concatAll (outsOf body) } := by
  induction body with
  | nil => intro st _; simp [concatAll, outsOf]
  | cons e rest ih =>
      intro st hb
      have he : nonTerminal e = true := hb e (List.mem_cons_self e rest)
      have hrest : ∀ x ∈ rest, nonTerminal x = true :=
        fun x hx => hb x (List.mem_cons_of_mem e hx)
      cases e with
      | out s =>
          rw [List.foldl_cons, ih _ hrest]
          simp [benchStep, outsOf, concatAll, String.append_assoc]
      | errOut s =>
          rw [List.foldl_cons, ih _ hrest]
          simp [benchStep, outsOf, concatAll]
      | close code => simp [nonTerminal] at he
      | fail msg => simp [nonTerminal] at he

/-- While the listeners are attached and no stderr chunk looks like an
error, the streaming pipeline relays every stdout chunk in arrival order
and accumulates the full output. -/
lemma streamStep_body_clean (pid : String) (body : List ProcEv) :
    ∀ st : StreamState, (∀ e ∈ body, nonTerminal e = true) →
      (∀ e ∈ body, isBadEv e = false) → st.listeners = true →
      body.foldl (streamStep pid) st
        = { st with
            emitted := st.emitted ++ (outsOf body).map IpcEv.data
            fullOutput := st.fullOutput ++ concatAll (outsOf body) } := by
  induction body with
  | nil => intro st _ _ _; simp [concatAll, outsOf]
  | cons e rest ih =>
      intro st hb hc hl
      have he : nonTerminal e = true := hb e (List.mem_cons_self e rest)
      have hce : isBadEv e = false := hc e (List.mem_cons_self e rest)
      have hrest : ∀ x ∈ rest, nonTerminal x = true :=
        fun x hx => hb x (List.mem_cons_of_mem e hx)
      have hcrest : ∀ x ∈ rest, isBadEv x = false :=
        fun x hx => hc x (List.mem_cons_of_mem e hx)
      cases e with
      | out s =>
          rw [List.foldl_cons, ih _ hrest hcrest (by simp [streamStep, hl])]
          simp [streamStep, hl, outsOf, concatAll, String.append_assoc]
      | errOut s =>
          have : stderrIsError s = false := by simpa [isBadEv] using hce
          rw [List.foldl_cons, ih _ hrest hcrest (by simp [streamStep, this, hl])]
          simp [streamStep, this, outsOf, concatAll]
      | close code => simp [nonTerminal] at he
      | fail msg => simp [nonTerminal] at he

/-! ## C2 -/

/-- Claim C2 counterexample: a process that exits with code 0 (or, on the
streaming path, a `null` code) after producing zero stdout bytes is
resolved as a success — `standardQuery` resolves the empty string and
`streamingQuery` emits `end("")` — instead of failing with an
`EmptyOutputError`. -/
theorem emptyOutput_resolves_success_counterexample :
    (runStandard "query_0" [] [ProcEv.close (some 0)]).result
      = some (Except.ok "") ∧
    (runStream "stream_0" [] [ProcEv.close (some 0)]).emitted
      = [IpcEv.start, IpcEv.endEv ""] ∧
    (runStream "stream_0" [] [ProcEv.close none]).emitted
      = [IpcEv.start, IpcEv.endEv ""] :=
  ⟨rfl, rfl, rfl⟩

/-- Claim C2 amended: a zero-exit (or, streaming, null-code) close after zero
captured stdout bytes is resolved as a success with empty text by
`standardQuery` and `streamingQuery`; only the benchmark driver's promise
rejects such a run, and with the generic exit message rather than a
distinct `EmptyOutputError`. -/
theorem emptyOutput_paths (pid : String) (r : List (String × Handle))
    (body : List ProcEv) (hb : ∀ e ∈ body, nonTerminal e = true)
    (hout : outsOf body = []) (hclean : ∀ e ∈ body, isBadEv e = false) :
    (runStandard pid r (body ++ [ProcEv.close (some 0)])).result
      = some (Except.ok "") ∧
    (runStream pid r (body ++ [ProcEv.close (some 0)])).emitted
      = [IpcEv.start, IpcEv.endEv ""] ∧
    (runStream pid r (body ++ [ProcEv.close none])).emitted
      = [IpcEv.start, IpcEv.endEv ""] ∧
    (runBench (body ++ [ProcEv.close (some 0)])).result
      = some (Except.error "Model process exited with code 0") := by
  refine ⟨?_, ?_, ?_, ?_⟩
  · unfold runStandard
    rw [List.foldl_append, stdStep_body pid body _ hb]
    simp [stdStep, hout, concatAll]
  · unfold runStream
    rw [List.foldl_append, streamStep_body_clean pid body _ hb hclean rfl]
    simp [streamStep, hout, concatAll]
  · unfold runStream
    rw [List.foldl_append, streamStep_body_clean pid body _ hb hclean rfl]
    simp [streamStep, hout, concatAll]
  · unfold runBench
    rw [List.foldl_append, benchStep_body body _ hb]
    simp only [List.foldl_cons, List.foldl_nil, benchStep, hout, concatAll]
    rfl

/-- Claim C2 witness: a run that closes with code 0 without any stdout. -/
theorem emptyOutput_paths_witness :
    (∀ e ∈ ([] : List ProcEv), nonTerminal e = true) ∧
    outsOf ([] : List ProcEv) = [] ∧
    (∀ e ∈ ([] : List ProcEv), isBadEv e = false) ∧
    (runStandard "query_0" [] (([] : List ProcEv)
        ++ [ProcEv.close (some 0)])).result = some (Except.ok "") := by
  refine ⟨by decide, by decide, by decide, ?_⟩
  exact (emptyOutput_paths "query_0" [] [] (by decide) (by decide)
    (by decide)).1

/-! ## C4 -/

/-- Output events never touch the registry in the streaming pipeline. -/
lemma streamStep_body_registry (pid : String) (body : List ProcEv) :
    ∀ st : StreamState, (∀ e ∈ body, nonTerminal e = true) →
      (body.foldl (streamStep pid) st).registry = st.registry := by
  induction body with
  | nil => intro st _; rfl
  | cons e rest ih =>
      intro st hb
      have he : nonTerminal e = true := hb e (List.mem_cons_self e rest)
      have hrest : ∀ x ∈ rest, nonTerminal x = true :=
        fun x hx => hb x (List.mem_cons_of_mem e hx)
      cases e with
      | out s => rw [List.foldl_cons, ih _ hrest]; rfl
      | errOut s =>
          rw [List.foldl_cons, ih _ hrest]
          simp only [streamStep]
          split
          · split <;> rfl
          · rfl
      | close code => simp [nonTerminal] at he
      | fail msg => simp [nonTerminal] at he

/-- Deleting the just-inserted key restores the registry. -/
lemma delKey_cons (pid : String) (h : Handle) (r : List (String × Handle)) :
    delKey ((pid, h) :: r) pid = r := by
  simp [delKey]

/-- The final rejection relay only appends an event; the registry is
untouched. -/
lemma runStream_post_registry (st : StreamState) :
    (match st.rejected with
      | some msg => { st with emitted := st.emitted ++ [IpcEv.errEv msg] }
      | none => st).registry = st.registry := by
  cases st.rejected <;> rfl

/-- The registry after the terminal occurrence of a streaming run. -/
lemma runStream_registry (pid : String) (r : List (String × Handle))
    (body : List ProcEv) (term : ProcEv)
    (hb : ∀ e ∈ body, nonTerminal e = true)
    (ht : nonTerminal term = false) :
    (runStream pid r (body ++ [term])).registry = r := by
  unfold runStream
  rw [List.foldl_append]
  have hreg := streamStep_body_registry pid body
    { emitted := [IpcEv.start], listeners := true, fullOutput := ""
      rejected := none, registry := (pid, Handle.wrapped) :: r } hb
  set st := body.foldl (streamStep pid)
    { emitted := [IpcEv.start], listeners := true, fullOutput := ""
      rejected := none, registry := (pid, Handle.wrapped) :: r } with hst
  have hfin : ∀ st2 : StreamState, st2.registry = r →
      (match st2.rejected with
        | some msg => { st2 with emitted := st2.emitted ++ [IpcEv.errEv msg] }
        | none => st2).registry = r := by
    intro st2 h2
    cases st2.rejected <;> simpa using h2
  cases term with
  | out s => simp [nonTerminal] at ht
  | errOut s => simp [nonTerminal] at ht
  | close code =>
      apply hfin
      simp only [List.foldl_cons, List.foldl_nil, streamStep]
      split
      · split <;> simp [hreg, delKey_cons]
      · split <;> simp [hreg, delKey_cons]
  | fail msg =>
      apply hfin
      simp only [List.foldl_cons, List.foldl_nil, streamStep]
      split <;> simp [hreg, delKey_cons]

/-- The registry after the terminal occurrence of a standard run. -/
lemma runStandard_registry (pid : String) (r : List (String × Handle))
    (body : List ProcEv) (term : ProcEv)
    (hb : ∀ e ∈ body, nonTerminal e = true)
    (ht : nonTerminal term = false) :
    (runStandard pid r (body ++ [term])).registry = r := by
  unfold runStandard
  rw [List.foldl_append, stdStep_body pid body _ hb]
  cases term with
  | out s => simp [nonTerminal] at ht
  | errOut s => simp [nonTerminal] at ht
  | close code => simp [stdStep, delKey_cons]
  | fail msg => simp [stdStep, delKey_cons]

/-- A well-formed trace decomposes into output events followed by one
terminal occurrence. -/
lemma wfTrace_decomp : ∀ t : List ProcEv, wfTrace t = true →
    ∃ body term, t = body ++ [term] ∧ (∀ e ∈ body, nonTerminal e = true) ∧
      nonTerminal term = false := by
  intro t
  induction t with
  | nil => intro h; simp [wfTrace] at h
  | cons e rest ih =>
      intro h
      cases rest with
      | nil =>
          refine ⟨[], e, by simp, by simp, ?_⟩
          simpa [wfTrace] using h
      | cons e2 rest2 =>
          have h2 : nonTerminal e = true ∧ wfTrace (e2 :: rest2) = true := by
            simpa [wfTrace, Bool.and_eq_true] using h
          obtain ⟨body, term, heq, hbody, hterm⟩ := ih h2.2
          refine ⟨e :: body, term, by simp [heq], ?_, hterm⟩
          intro x hx
          rcases List.mem_cons.mp hx with hx | hx
          · exact hx ▸ h2.1
          · exact hbody x hx

/-- Claim C4: the active-process registry gets the handle at spawn, keeps it for
the whole run, loses it exactly at the terminal occurrence (close or
process error), and is restored to its pre-query value — also under
arbitrarily repeated spawn/terminate cycles on either path. -/
theorem registry_balanced (pid : String) (r : List (String × Handle))
    (body : List ProcEv) (term : ProcEv)
    (hb : ∀ e ∈ body, nonTerminal e = true)
    (ht : nonTerminal term = false) (hfresh : pid ∉ regKeys r) :
    (runStandard pid r (body ++ [term])).registry = r ∧
    (runStream pid r (body ++ [term])).registry = r ∧
    (runStandard pid r body).registry = (pid, Handle.plain) :: r ∧
    (runStream pid r body).registry = (pid, Handle.wrapped) :: r ∧
    (∀ cycles : List SpawnCycle,
      (∀ c ∈ cycles, wfTrace c.trace = true ∧ c.pid ∉ regKeys r) →
      cycles.foldl afterCycle r = r) := by
  refine ⟨runStandard_registry pid r body term hb ht,
    runStream_registry pid r body term hb ht, ?_, ?_, ?_⟩
  · unfold runStandard
    rw [stdStep_body pid body _ hb]
  · unfold runStream
    dsimp only
    rw [runStream_post_registry, streamStep_body_registry pid body _ hb]
  · intro cycles hcyc
    induction cycles with
    | nil => rfl
    | cons c rest ih =>
        have hc := hcyc c (List.mem_cons_self c rest)
        obtain ⟨cbody, cterm, hceq, hcb, hct⟩ := wfTrace_decomp c.trace hc.1
        have hstep : afterCycle r c = r := by
          unfold afterCycle
          rw [hceq]
          cases hs : c.streaming
          · rw [if_neg (by simp [hs])]
            exact runStandard_registry c.pid r cbody cterm hcb hct
          · rw [if_pos (by simp [hs])]
            exact runStream_registry c.pid r cbody cterm hcb hct
        rw [List.foldl_cons, hstep]
        exact ih (fun x hx => hcyc x (List.mem_cons_of_mem c hx))

/-- Claim C4 witness: one output chunk then a clean close, plus a pair of cycles
(one streaming, one standard, one of them failing). -/
theorem registry_balanced_witness :
    (∀ e ∈ [ProcEv.out "x"], nonTerminal e = true) ∧
    nonTerminal (ProcEv.close (some 0)) = false ∧
    ("query_1" ∉ regKeys []) ∧
    (runStandard "query_1" [] ([ProcEv.out "x"] ++ [ProcEv.close (some 0)])).registry
      = [] ∧
    ([⟨"stream_2", [ProcEv.close none], true⟩,
      ⟨"query_3", [ProcEv.fail "spawn error"], false⟩] : List SpawnCycle).foldl
        afterCycle [] = [] := by
  refine ⟨by decide, by decide, by simp [regKeys], ?_, ?_⟩
  · exact (registry_balanced "query_1" [] [ProcEv.out "x"] (ProcEv.close (some 0))
      (by decide) (by decide) (by simp [regKeys])).1
  · refine (registry_balanced "query_1" [] [ProcEv.out "x"] (ProcEv.close (some 0))
      (by decide) (by decide) (by simp [regKeys])).2.2.2.2 _ ?_
    intro c hc
    rcases List.mem_cons.mp hc with h | hc
    · subst h; exact ⟨by decide, by simp [regKeys]⟩
    · rcases List.mem_cons.mp hc with h | hc
      · subst h; exact ⟨by decide, by simp [regKeys]⟩
      · simp at hc

/-! ## C1 -/

/-- The shape is preserved by every output event. -/
lemma midShape_fold (pid : String) (body : List ProcEv) :
    ∀ st : StreamState, (∀ e ∈ body, nonTerminal e = true) → MidShape st →
      MidShape (body.foldl (streamStep pid) st) := by
  induction body with
  | nil => intro st _ h; exact h
  | cons e rest ih =>
      intro st hb hsh
      have he : nonTerminal e = true := hb e (List.mem_cons_self e rest)
      have hrest : ∀ x ∈ rest, nonTerminal x = true :=
        fun x hx => hb x (List.mem_cons_of_mem e hx)
      rw [List.foldl_cons]
      refine ih _ hrest ?_
      obtain ⟨hrej, ds, hds, hcase⟩ := hsh
      cases e with
      | out s =>
          rcases hcase with ⟨hl, hem⟩ | ⟨hl, a, hem⟩
          · exact ⟨hrej, ds ++ [IpcEv.data s], by
              intro x hx
              rcases List.mem_append.mp hx with hx | hx
              · exact hds x hx
              · simp at hx; subst hx; rfl,
              Or.inl ⟨by simp [streamStep, hl], by
                simp [streamStep, hl, hem]⟩⟩
          · exact ⟨hrej, ds, hds, Or.inr ⟨by simp [streamStep, hl], a, by
              simp [streamStep, hl, hem]⟩⟩
      | errOut s =>
          by_cases hbad : stderrIsError s = true
          · rcases hcase with ⟨hl, hem⟩ | ⟨hl, a, hem⟩
            · exact ⟨by simp [streamStep, hbad, hl, hrej], ds, hds,
                Or.inr ⟨by simp [streamStep, hbad, hl], s,
                  by simp [streamStep, hbad, hl, hem]⟩⟩
            · exact ⟨by simp [streamStep, hbad, hl, hrej], ds, hds,
                Or.inr ⟨by simp [streamStep, hbad, hl],
                  a, by simp [streamStep, hbad, hl, hem]⟩⟩
          · have hbad' : stderrIsError s = false := by
              simpa using hbad
            rcases hcase with ⟨hl, hem⟩ | ⟨hl, a, hem⟩
            · exact ⟨by simp [streamStep, hbad', hrej], ds, hds,
                Or.inl ⟨by simp [streamStep, hbad', hl],
                  by simp [streamStep, hbad', hem]⟩⟩
            · exact ⟨by simp [streamStep, hbad', hrej], ds, hds,
                Or.inr ⟨by simp [streamStep, hbad', hl],
                  a, by simp [streamStep, hbad', hem]⟩⟩
      | close code => simp [nonTerminal] at he
      | fail msg => simp [nonTerminal] at he

lemma countStart_eq_zero (l : List IpcEv) (h : ∀ x ∈ l, x ≠ IpcEv.start) :
    countStart l = 0 :=
  List.countP_eq_zero.mpr (fun a ha => by simp [h a ha])

/-- Claim C1 amended: for every well-formed process trace the relayed sequence is
exactly one `start` (at the head), then data chunks, then a terminal
segment that is either exactly one `end`, or one or two `error` events —
never both an `end` and an `error`.  On a clean-stderr success the data
events are exactly the stdout chunks in arrival order and `end` carries the
full accumulated text; on a clean-stderr nonzero exit the `error` event is
relayed twice (once via the service's `error` emission, once via the
rejected promise's `.catch`). -/
theorem stream_event_sequence (pid : String) (r : List (String × Handle))
    (body : List ProcEv) (term : ProcEv)
    (hb : ∀ e ∈ body, nonTerminal e = true)
    (ht : nonTerminal term = false) :
    countStart (runStream pid r (body ++ [term])).emitted = 1 ∧
    (∃ ds, (∀ x ∈ ds, isData x = true) ∧
      ((∃ f, (runStream pid r (body ++ [term])).emitted
          = IpcEv.start :: ds ++ [IpcEv.endEv f]) ∨
       (∃ a, (runStream pid r (body ++ [term])).emitted
          = IpcEv.start :: ds ++ [IpcEv.errEv a]) ∨
       (∃ a a2, (runStream pid r (body ++ [term])).emitted
          = IpcEv.start :: ds ++ [IpcEv.errEv a, IpcEv.errEv a2]))) ∧
    ((∀ e ∈ body, isBadEv e = false) →
      (term = ProcEv.close (some 0) ∨ term = ProcEv.close none) →
      (runStream pid r (body ++ [term])).emitted
        = IpcEv.start :: (outsOf body).map IpcEv.data
            ++ [IpcEv.endEv (concatAll (outsOf body))]) ∧
    (∀ c : ℤ, c ≠ 0 → (∀ e ∈ body, isBadEv e = false) →
      term = ProcEv.close (some c) →
      (runStream pid r (body ++ [term])).emitted
        = IpcEv.start :: (outsOf body).map IpcEv.data
            ++ [IpcEv.errEv (exitMsg (some c)),
                IpcEv.errEv (exitMsg (some c))]) := by
  have hshape : ∃ ds, (∀ x ∈ ds, isData x = true) ∧
      ((∃ f, (runStream pid r (body ++ [term])).emitted
          = IpcEv.start :: ds ++ [IpcEv.endEv f]) ∨
       (∃ a, (runStream pid r (body ++ [term])).emitted
          = IpcEv.start :: ds ++ [IpcEv.errEv a]) ∨
       (∃ a a2, (runStream pid r (body ++ [term])).emitted
          = IpcEv.start :: ds ++ [IpcEv.errEv a, IpcEv.errEv a2])) := by
    unfold runStream
    rw [List.foldl_append]
    have hmid := midShape_fold pid body
      { emitted := [IpcEv.start], listeners := true, fullOutput := ""
        rejected := none, registry := (pid, Handle.wrapped) :: r } hb
      ⟨rfl, [], by simp, Or.inl ⟨rfl, rfl⟩⟩
    set st1 := body.foldl (streamStep pid)
      { emitted := [IpcEv.start], listeners := true, fullOutput := ""
        rejected := none, registry := (pid, Handle.wrapped) :: r } with hst1
    obtain ⟨hrej, ds, hds, hcase⟩ := hmid
    cases term with
    | out s => simp [nonTerminal] at ht
    | errOut s => simp [nonTerminal] at ht
    | close code =>
        by_cases hcode : code = some 0 ∨ code = none
        · rcases hcase with ⟨hl, hem⟩ | ⟨hl, a, hem⟩
          · refine ⟨ds, hds, Or.inl ⟨st1.fullOutput, ?_⟩⟩
            simp [streamStep, hcode, hl, hrej, hem]
          · refine ⟨ds, hds, Or.inr (Or.inl ⟨a, ?_⟩)⟩
            simp [streamStep, hcode, hl, hrej, hem]
        · rcases hcase with ⟨hl, hem⟩ | ⟨hl, a, hem⟩
          · refine ⟨ds, hds, Or.inr (Or.inr
              ⟨exitMsg code, exitMsg code, ?_⟩)⟩
            simp [streamStep, hcode, hl, hrej, hem]
          · refine ⟨ds, hds, Or.inr (Or.inr ⟨a, exitMsg code, ?_⟩)⟩
            simp [streamStep, hcode, hl, hrej, hem]
    | fail msg =>
        rcases hcase with ⟨hl, hem⟩ | ⟨hl, a, hem⟩
        · exact ⟨ds, hds, Or.inr (Or.inr ⟨msg, msg, by
            simp [streamStep, hl, hrej, hem]⟩)⟩
        · exact ⟨ds, hds, Or.inr (Or.inr ⟨a, msg, by
            simp [streamStep, hl, hrej, hem]⟩)⟩
  refine ⟨?_, hshape, ?_, ?_⟩
  · obtain ⟨ds, hds, hcase⟩ := hshape
    have hds0 : countStart ds = 0 := countStart_eq_zero ds
      (fun x hx => by have := hds x hx; cases x <;> simp_all [isData])
    rcases hcase with ⟨f, hem⟩ | ⟨a, hem⟩ | ⟨a, a2, hem⟩ <;>
      simp [hem, countStart, List.countP_cons, List.countP_append] <;>
      simpa [countStart] using hds0
  · intro hclean hcode
    unfold runStream
    rw [List.foldl_append,
      streamStep_body_clean pid body _ hb hclean rfl]
    rcases hcode with h | h <;> subst h <;> simp [streamStep, concatAll]
  · intro c hc hclean hterm
    subst hterm
    unfold runStream
    rw [List.foldl_append,
      streamStep_body_clean pid body _ hb hclean rfl]
    have hcode : ¬(some c = some 0 ∨ (some c : Option ℤ) = none) := by
      simp [hc]
    simp [streamStep, hcode, hc]

/-- Claim C1 counterexample: a streaming process that exits with code 1 produces
`start` followed by **two** `stream-error` events — the terminal event is
relayed more than once. -/
theorem stream_event_sequence_counterexample :
    (runStream "stream_1" [] [ProcEv.close (some 1)]).emitted
      = [IpcEv.start, IpcEv.errEv "Model process exited with code 1",
         IpcEv.errEv "Model process exited with code 1"] ∧
    (runStream "stream_1" [] [ProcEv.close (some 1)]).emitted.countP isErr
      = 2 :=
  ⟨rfl, rfl⟩

/-- Claim C1 witness: a clean streaming run with one chunk relays
`start`, `data`, `end`. -/
theorem stream_event_sequence_witness :
    (∀ e ∈ [ProcEv.out "Hello"], nonTerminal e = true) ∧
    nonTerminal (ProcEv.close (some 0)) = false ∧
    (runStream "stream_1" [] ([ProcEv.out "Hello"] ++ [ProcEv.close (some 0)])).emitted
      = IpcEv.start :: (outsOf [ProcEv.out "Hello"]).map IpcEv.data
          ++ [IpcEv.endEv (concatAll (outsOf [ProcEv.out "Hello"]))] := by
  refine ⟨by decide, by decide, ?_⟩
  exact (stream_event_sequence "stream_1" [] [ProcEv.out "Hello"]
    (ProcEv.close (some 0)) (by decide) (by decide)).2.2.1
    (by decide) (Or.inl rfl)

/-! ## C6 -/

/-- Claim C6: for every capability set the built argument vector contains the six
required tokens (model path, prompt, temperature, seed, context size, max
tokens) and the thread count `max(1, N-1)` (which is `1` for `N = 1`), and
contains a capability-gated flag token only when the probe's help output
contains that token — provided none of the value strings collides with a
gated flag token. -/
theorem buildArgs_required_and_gated (modelPath prompt t sd cs mt tp : String)
    (cpus : Nat) (caps : String)
    (h1 : modelPath ∉ gatedTokens) (h2 : prompt ∉ gatedTokens)
    (h3 : t ∉ gatedTokens) (h4 : sd ∉ gatedTokens) (h5 : cs ∉ gatedTokens)
    (h6 : mt ∉ gatedTokens) (h7 : tp ∉ gatedTokens)
    (h8 : toString (max 1 (cpus - 1)) ∉ gatedTokens) :
    ("-m" ∈ buildArgs modelPath prompt t sd cs mt tp cpus caps ∧
     modelPath ∈ buildArgs modelPath prompt t sd cs mt tp cpus caps ∧
     "-p" ∈ buildArgs modelPath prompt t sd cs mt tp cpus caps ∧
     prompt ∈ buildArgs modelPath prompt t sd cs mt tp cpus caps ∧
     "--temp" ∈ buildArgs modelPath prompt t sd cs mt tp cpus caps ∧
     t ∈ buildArgs modelPath prompt t sd cs mt tp cpus caps ∧
     "--seed" ∈ buildArgs modelPath prompt t sd cs mt tp cpus caps ∧
     sd ∈ buildArgs modelPath prompt t sd cs mt tp cpus caps ∧
     "--ctx-size" ∈ buildArgs modelPath prompt t sd cs mt tp cpus caps ∧
     cs ∈ buildArgs modelPath prompt t sd cs mt tp cpus caps ∧
     "--n-predict" ∈ buildArgs modelPath prompt t sd cs mt tp cpus caps ∧
     mt ∈ buildArgs modelPath prompt t sd cs mt tp cpus caps ∧
     "--threads" ∈ buildArgs modelPath prompt t sd cs mt tp cpus caps ∧
     toString (max 1 (cpus - 1))
       ∈ buildArgs modelPath prompt t sd cs mt tp cpus caps) ∧
    max 1 (1 - 1) = 1 ∧
    (∀ f ∈ gatedTokens,
      f ∈ buildArgs modelPath prompt t sd cs mt tp cpus caps →
        strIncludes caps f = true) := by
  refine ⟨?_, rfl, ?_⟩
  · unfold buildArgs
    refine ⟨?_, ?_, ?_, ?_, ?_, ?_, ?_, ?_, ?_, ?_, ?_, ?_, ?_, ?_⟩ <;>
      simp [List.mem_append]
  · intro f hf hmem
    unfold buildArgs at hmem
    rcases List.mem_append.mp hmem with hm | hs4
    rotate_left
    · -- conversation-suppression segment
      split at hs4
      · rename_i hc
        simp only [List.mem_singleton] at hs4
        subst hs4; exact hc
      · split at hs4
        · rename_i hc
          simp only [List.mem_singleton] at hs4
          subst hs4; exact hc
        · simp at hs4
    rcases List.mem_append.mp hm with hm | hs3
    rotate_left
    · split at hs3
      · rename_i hc
        simp only [List.mem_singleton] at hs3
        subst hs3; exact hc
      · simp at hs3
    rcases List.mem_append.mp hm with hm | hs2
    rotate_left
    · split at hs2
      · rename_i hc
        simp only [List.mem_singleton] at hs2
        subst hs2; exact hc
      · simp at hs2
    rcases List.mem_append.mp hm with hbase | hs1
    rotate_left
    · split at hs1
      · rename_i hc
        simp only [List.mem_cons, List.not_mem_nil, or_false] at hs1
        rcases hs1 with rfl | rfl
        · exact hc
        · exact absurd hf h7
      · simp at hs1
    · simp only [List.mem_cons, List.not_mem_nil, or_false] at hbase
      rcases hbase with rfl|rfl|rfl|rfl|rfl|rfl|rfl|rfl|rfl|rfl|rfl|rfl|rfl|rfl
      · exact absurd hf (by decide)
      · exact absurd hf h1
      · exact absurd hf (by decide)
      · exact absurd hf h2
      · exact absurd hf (by decide)
      · exact absurd hf h3
      · exact absurd hf (by decide)
      · exact absurd hf h4
      · exact absurd hf (by decide)
      · exact absurd hf h5
      · exact absurd hf (by decide)
      · exact absurd hf h6
      · exact absurd hf (by decide)
      · exact absurd hf h8

/-- Claim C6 witness: concrete inputs whose value strings collide with no gated
flag token; the capability set is empty so no gated flag may appear. -/
theorem buildArgs_required_and_gated_witness :
    ("m.gguf" ∉ gatedTokens) ∧ ("hello" ∉ gatedTokens) ∧
    ("0.7" ∉ gatedTokens) ∧ ("42" ∉ gatedTokens) ∧ ("2048" ∉ gatedTokens) ∧
    ("500" ∉ gatedTokens) ∧ ("0.9" ∉ gatedTokens) ∧
    (toString (max 1 (4 - 1)) ∉ gatedTokens) ∧
    "-m" ∈ buildArgs "m.gguf" "hello" "0.7" "42" "2048" "500" "0.9" 4 "" ∧
    (∀ f ∈ gatedTokens,
      f ∈ buildArgs "m.gguf" "hello" "0.7" "42" "2048" "500" "0.9" 4 "" →
        strIncludes "" f = true) := by
  refine ⟨by decide, by decide, by decide, by decide, by decide, by decide,
    by decide, by decide, ?_, ?_⟩
  · exact (buildArgs_required_and_gated "m.gguf" "hello" "0.7" "42" "2048"
      "500" "0.9" 4 "" (by decide) (by decide) (by decide) (by decide)
      (by decide) (by decide) (by decide) (by decide)).1.1
  · exact (buildArgs_required_and_gated "m.gguf" "hello" "0.7" "42" "2048"
      "500" "0.9" 4 "" (by decide) (by decide) (by decide) (by decide)
      (by decide) (by decide) (by decide) (by decide)).2.2

/-! ## C8 -/

/-- Claim C8 counterexample: the cited rate computations are unguarded divisions:
at a zero time denominator the total-elapsed tokens-per-second is
`Infinity` (or `NaN` when the token count is also 0), not 0, and
`formatResults`' derived generation time inherits the same behaviour. -/
theorem tokensPerSec_zero_denominator_counterexample :
    benchmarkTokensPerSec (JsNum.fin 10) (JsNum.fin 0) = JsNum.inf ∧
    JsNum.inf ≠ JsNum.fin 0 ∧
    benchmarkTokensPerSec (JsNum.fin 0) (JsNum.fin 0) = JsNum.nan ∧
    promptTotalTPS (JsNum.fin 10) (JsNum.fin 0) = JsNum.inf ∧
    (formatMetrics (JsNum.fin 5) (JsNum.fin 10) (JsNum.fin 0)).generationTime
      = JsNum.inf := by
  refine ⟨?_, ?_, ?_, ?_, ?_⟩ <;> decide

/-- Claim C8 amended: the guarded rates of `scripts/benchmark.ts` (generation-only
tokens-per-second and both aggregate averages) are 0 at a zero denominator
and finite for finite non-negative inputs; the unguarded total-elapsed rate
of part_000 yields `Infinity` (or `NaN` for a zero token count) at a zero
denominator. -/
theorem tokensPerSec_guard_behaviour (tok g : ℚ) (htok : 0 ≤ tok) :
    generationTPS (JsNum.fin tok) (JsNum.fin 0) = JsNum.fin 0 ∧
    averageTPS (JsNum.fin tok) (JsNum.fin 0) = JsNum.fin 0 ∧
    averageTPS (JsNum.fin 0) (JsNum.fin g) = JsNum.fin 0 ∧
    (0 < g → generationTPS (JsNum.fin tok) (JsNum.fin g)
      = JsNum.fin (tok / g)) ∧
    (∃ q : ℚ, generationTPS (JsNum.fin tok) (JsNum.fin g) = JsNum.fin q) ∧
    (∃ q : ℚ, averageTPS (JsNum.fin tok) (JsNum.fin g) = JsNum.fin q) ∧
    benchmarkTokensPerSec (JsNum.fin tok) (JsNum.fin 0)
      = (if tok = 0 then JsNum.nan else JsNum.inf) := by
  refine ⟨?_, ?_, ?_, ?_, ?_, ?_, ?_⟩
  · simp [generationTPS, jsLt]
  · simp [averageTPS, jsLt]
  · by_cases h : 0 < g
    · simp [averageTPS, jsLt, h]
    · simp [averageTPS, jsLt, h]
  · intro hpos
    have hne : g ≠ 0 := ne_of_gt hpos
    simp [generationTPS, jsLt, hpos, jsDiv, hne]
  · by_cases h : 0 < g
    · have hne : g ≠ 0 := ne_of_gt h
      exact ⟨tok / g, by simp [generationTPS, jsLt, h, jsDiv, hne]⟩
    · exact ⟨0, by simp [generationTPS, jsLt, h]⟩
  · by_cases h : 0 < tok ∧ 0 < g
    · have hne : g ≠ 0 := ne_of_gt h.2
      exact ⟨tok / g, by simp [averageTPS, jsLt, h.1, h.2, jsDiv, hne]⟩
    · refine ⟨0, ?_⟩
      unfold averageTPS
      rw [if_neg]
      simp only [jsLt, Bool.and_eq_true, decide_eq_true_eq]
      exact fun hcon => h ⟨hcon.1, hcon.2⟩
  · by_cases h : tok = 0
    · simp [benchmarkTokensPerSec, jsDiv, h]
    · have hpos : 0 < tok := lt_of_le_of_ne htok (Ne.symm h)
      simp [benchmarkTokensPerSec, jsDiv, h, hpos]

/-- Claim C8 witness: 10 tokens over 2 seconds. -/
theorem tokensPerSec_guard_behaviour_witness :
    (0 : ℚ) ≤ 10 ∧
    generationTPS (JsNum.fin 10) (JsNum.fin 0) = JsNum.fin 0 ∧
    (0 < (2 : ℚ) → generationTPS (JsNum.fin 10) (JsNum.fin 2)
      = JsNum.fin (10 / 2)) := by
  refine ⟨by norm_num, ?_, ?_⟩
  · exact (tokensPerSec_guard_behaviour 10 2 (by norm_num)).1
  · exact (tokensPerSec_guard_behaviour 10 2 (by norm_num)).2.2.2.1
